import Mathlib

/-!
Shallow embedding of flask_compress.py (class Compress and DictCache) and
proofs of the specification claims about its response-compression pipeline.

Bytes are modelled as `List Nat`, header maps as association lists with
case-insensitive keys (werkzeug headers are case-insensitive), and the two
external compression libraries (zlib/gzip and brotli) as function parameters,
since they are outside the repository.
-/

/-- Lowercasing of a string, character by character (models Python str.lower
for the ASCII header values involved here). -/
def lowerStr (s : String) : String := ⟨s.data.map Char.toLower⟩

/-- Tests whether the first list is an initial segment of the second. -/
def beginsList : List Char → List Char → Bool
  | [], _ => true
  | _ :: _, [] => false
  | a :: as, b :: bs => a == b && beginsList as bs

/-- Tests whether `n` occurs as a contiguous subsequence of the second list
(models the Python substring test `n in h`). -/
def containsSeq (n : List Char) : List Char → Bool
  | [] => beginsList n []
  | c :: t => beginsList n (c :: t) || containsSeq n t

/-- Substring containment on strings: `substrOf n h` models Python `n in h`. -/
def substrOf (needle hay : String) : Bool := containsSeq needle.data hay.data

/-- Case-insensitive equality of header names (werkzeug header keys). -/
def keyEq (a b : String) : Bool := lowerStr a == lowerStr b

/-- First value stored under a header name, case-insensitively
(models `response.headers.get(name)`). -/
def hGet : List (String × String) → String → Option String
  | [], _ => none
  | (k, v) :: t, key => if keyEq k key then some v else hGet t key

/-- Membership of a header name, case-insensitively
(models `name in response.headers`). -/
def hMem (hs : List (String × String)) (key : String) : Bool :=
  (hGet hs key).isSome

/-- Removes every entry stored under a header name, case-insensitively. -/
def hRemove : List (String × String) → String → List (String × String)
  | [], _ => []
  | (k, v) :: t, key =>
      if keyEq k key then hRemove t key else (k, v) :: hRemove t key

/-- Replaces the entries under a header name by a single new one
(models `response.headers[name] = value`). -/
def hSet (hs : List (String × String)) (key v : String) :
    List (String × String) :=
  hRemove hs key ++ [(key, v)]

/-- The flask response object as seen by the pipeline: MIME type, status
code, byte body, content length, header map and the direct_passthrough flag. -/
structure Response where
  mimetype : String
  statusCode : Nat
  body : List Nat
  contentLength : Option Nat
  headers : List (String × String)
  directPassthrough : Bool
deriving DecidableEq, Repr

/-- Models `response.set_data(bytes)`: replaces the body; flask then reports
`content_length` as the length of the new body. -/
def setData (r : Response) (b : List Nat) : Response :=
  { r with body := b, contentLength := some b.length }

/-- The resolved configuration snapshot read by `after_request` from
`app.config` (cache key functions may be absent, i.e. configured as None). -/
structure Config where
  mimetypes : List String
  level : Nat
  minSize : Nat
  enableGzip : Bool
  enableBrotli : Bool
  gzipCacheKey : Option (Response → String)
  brotliCacheKey : Option (Response → String)
  register : Bool

/-- The two encodings, `BROTLI = 0` and `GZIP = 1` in the source. -/
inductive Enc where
  | brotli
  | gzip
deriving DecidableEq, Repr

/-- CONTENT_ENCODINGS = ('brotli', 'gzip'). -/
def encToken : Enc → String
  | .brotli => "brotli"
  | .gzip => "gzip"

/-- The cache key function tuple `self._cache_keys`, indexed by encoding. -/
def keyFnFor (cfg : Config) : Enc → Option (Response → String)
  | .brotli => cfg.brotliCacheKey
  | .gzip => cfg.gzipCacheKey

/-- The eligibility filter of `after_request` (source lines 103-108): MIME
type whitelisted, status in [200, 300), content length known and at least
COMPRESS_MIN_SIZE, and no Content-Encoding header already present. -/
def eligible (cfg : Config) (r : Response) : Bool :=
  cfg.mimetypes.contains r.mimetype &&
  (decide (200 ≤ r.statusCode) && decide (r.statusCode < 300)) &&
  (match r.contentLength with
   | none => false
   | some n => decide (cfg.minSize ≤ n)) &&
  !(hMem r.headers "Content-Encoding")

/-- Encoding selection of `after_request` (source lines 110-115): Brotli if
enabled and the lowercased Accept-Encoding contains the substring "brotli",
else Gzip if enabled and it contains "gzip", else none. -/
def selectEncoding (cfg : Config) (acceptEncoding : String) : Option Enc :=
  if cfg.enableBrotli && substrOf "brotli" (lowerStr acceptEncoding) then
    some .brotli
  else if cfg.enableGzip && substrOf "gzip" (lowerStr acceptEncoding) then
    some .gzip
  else
    none

/-- The DictCache backend: an unbounded key-to-bytes mapping. -/
structure DictCache where
  data : List (String × List Nat)
deriving DecidableEq, Repr

/-- Models `DictCache.get`: `self.data.get(key)`. -/
def DictCache.get (c : DictCache) (key : String) : Option (List Nat) :=
  (c.data.find? (fun p => p.1 == key)).map (fun p => p.2)

/-- Models `DictCache.set`: `self.data[key] = value` (replace the binding if
present, otherwise add it). -/
def DictCache.set (c : DictCache) (key : String) (v : List Nat) : DictCache :=
  ⟨setList c.data key v⟩
where
  setList : List (String × List Nat) → String → List Nat →
      List (String × List Nat)
    | [], k, v => [(k, v)]
    | (k0, v0) :: t, k, v =>
        if k0 == k then (k, v) :: t else (k0, v0) :: setList t k v

/-- Python truthiness of an optional bytes value: None and b'' are falsy.
Used to model `self._cache.get(key) or self._compress_methods[...](...)`. -/
def truthy : Option (List Nat) → Option (List Nat)
  | none => none
  | some v => if v = [] then none else some v

/-- The pure value of the Vary merge of `after_request` (source lines
137-142): keep the value if it already mentions accept-encoding
case-insensitively, append ", Accept-Encoding" otherwise, and produce
exactly "Accept-Encoding" when the header is absent or falsy (empty). -/
def mergeVary : Option String → String
  | none => "Accept-Encoding"
  | some v =>
      if v = "" then "Accept-Encoding"
      else if substrOf "accept-encoding" (lowerStr v) then v
      else v ++ ", Accept-Encoding"

/-- The Vary rewrite applied to the response headers: writes the header only
in the branches where the source writes it. -/
def applyVary (r : Response) : Response :=
  match hGet r.headers "Vary" with
  | some v =>
      if v = "" then
        { r with headers := hSet r.headers "Vary" "Accept-Encoding" }
      else if substrOf "accept-encoding" (lowerStr v) then r
      else
        { r with
            headers := hSet r.headers "Vary" (v ++ ", Accept-Encoding") }
  | none => { r with headers := hSet r.headers "Vary" "Accept-Encoding" }

/-- The response mutation of `after_request` once `compressed_content` is
known (source lines 132-142): set_data, then the Content-Encoding,
Content-Length and Vary headers. -/
def applyCompression (enc : Enc) (bytes : List Nat) (r : Response) :
    Response :=
  let r2 := setData r bytes
  let r3 :=
    { r2 with headers := hSet r2.headers "Content-Encoding" (encToken enc) }
  let r4 :=
    { r3 with
        headers := hSet r3.headers "Content-Length" (toString bytes.length) }
  applyVary r4

/-- Errors the pipeline can raise: calling a None cache key function (a
TypeError in Python), or an error propagated from a compression routine. -/
inductive PErr where
  | typeErrorNoneNotCallable
  | compressError (msg : String)
deriving DecidableEq, Repr

/-- The observable outcome of one `after_request` invocation: the response
(its state at the point of failure when `error` is set), the cache state,
whether the body was replaced, how many times a compression routine was
invoked, and the raised error if any. -/
structure PipeOut where
  resp : Response
  cache : Option DictCache
  applied : Bool
  calls : Nat
  error : Option PErr
deriving Repr

/-- The compression method tuple `self._compress_methods`, indexed by
encoding; the two routines are external libraries passed as parameters and
may fail. -/
def compressorFor (brotliC gzipC : Config → Response → Except String (List Nat))
    (cfg : Config) : Enc → Response → Except String (List Nat)
  | .brotli => brotliC cfg
  | .gzip => gzipC cfg

/-- Source lines 120-142 of `after_request`: the part that runs once an
encoding has been selected, with `r1` the response after
`response.direct_passthrough = False`. -/
def compressStep (cfg : Config)
    (brotliC gzipC : Config → Response → Except String (List Nat))
    (enc : Enc) (r1 : Response) (cache : Option DictCache) : PipeOut :=
  match cache with
  | some c =>
      match keyFnFor cfg enc with
      | none =>
          { resp := r1, cache := some c, applied := false, calls := 0,
            error := some .typeErrorNoneNotCallable }
      | some kf =>
          let key := kf r1
          match truthy (c.get key) with
          | some cached =>
              { resp := applyCompression enc cached r1,
                cache := some (c.set key cached), applied := true,
                calls := 0, error := none }
          | none =>
              match compressorFor brotliC gzipC cfg enc r1 with
              | .error e =>
                  { resp := r1, cache := some c, applied := false,
                    calls := 1, error := some (.compressError e) }
              | .ok bytes =>
                  { resp := applyCompression enc bytes r1,
                    cache := some (c.set key bytes), applied := true,
                    calls := 1, error := none }
  | none =>
      match compressorFor brotliC gzipC cfg enc r1 with
      | .error e =>
          { resp := r1, cache := none, applied := false, calls := 1,
            error := some (.compressError e) }
      | .ok bytes =>
          { resp := applyCompression enc bytes r1, cache := none,
            applied := true, calls := 1, error := none }

/-- Shallow embedding of `Compress.after_request` (source lines 98-144).
The Accept-Encoding request header is an `Option String`; absent defaults
to the empty string as in `request.headers.get('Accept-Encoding', '')`. -/
def afterRequest (cfg : Config) (acceptEncodingHdr : Option String)
    (brotliC gzipC : Config → Response → Except String (List Nat))
    (response : Response) (cache : Option DictCache) : PipeOut :=
  let accept_encoding := acceptEncodingHdr.getD ""
  if eligible cfg response = false then
    { resp := response, cache := cache, applied := false, calls := 0,
      error := none }
  else
    match selectEncoding cfg accept_encoding with
    | none =>
        { resp := response, cache := cache, applied := false, calls := 0,
          error := none }
    | some enc =>
        compressStep cfg brotliC gzipC enc
          { response with directPassthrough := false } cache

/-- The compression level the source COMPUTES at line 150 of
`_gzip_compress`: `level = min(zlib.Z_BEST_COMPRESSION, COMPRESS_LEVEL)`
with `zlib.Z_BEST_COMPRESSION = 9`. This local variable is never used
afterwards. -/
def gzipLevelComputed (cfg : Config) : Nat := min 9 cfg.level

/-- The compression level the source actually PASSES to the gzip engine at
line 152: `GzipFile(..., compresslevel=app.config['COMPRESS_LEVEL'], ...)`,
which is the unclamped configured level. -/
def gzipLevelPassed (cfg : Config) : Nat := cfg.level

/-- Shallow embedding of `Compress._gzip_compress` (source lines 146-155):
the gzip container construction itself is the external engine, called with
the compresslevel the source passes and the response body. -/
def gzip_compress (engine : Nat → List Nat → Except String (List Nat))
    (cfg : Config) (r : Response) : Except String (List Nat) :=
  engine (gzipLevelPassed cfg) r.body

/-- TEXT_TYPES of the source. -/
def TEXT_TYPES : List String :=
  ["text/html", "text/css", "text/xml", "application/json",
   "application/javascript"]

/-- The Brotli mode hints. -/
inductive BrotliMode where
  | text
  | generic
deriving DecidableEq, Repr

/-- Shallow embedding of `Compress._brotli_compress` (source lines 157-165):
mode is MODE_TEXT for the built-in textual types, MODE_GENERIC otherwise;
the level is COMPRESS_LEVEL unclamped. -/
def brotli_compress
    (engine : BrotliMode → Nat → List Nat → Except String (List Nat))
    (cfg : Config) (r : Response) : Except String (List Nat) :=
  let mode := if TEXT_TYPES.contains r.mimetype then BrotliMode.text
              else BrotliMode.generic
  engine mode cfg.level r.body

/-- The caller-supplied application configuration before `init_app` runs:
`none` means the key is absent from `app.config`. For the cache key options
the inner Option is the configured value itself (None allowed); the cache
backend is modelled by whether a factory is supplied. -/
structure AppConfigIn where
  mimetypes : Option (List String)
  level : Option Nat
  minSize : Option Nat
  enableGzip : Option Bool
  enableBrotli : Option Bool
  gzipCacheKey : Option (Option (Response → String))
  brotliCacheKey : Option (Option (Response → String))
  cacheBackend : Option Bool
  register : Option Bool

/-- The `setdefault` loop of `init_app` (source lines 73-86): each option is
set to its default only when absent. -/
def resolveConfig (c : AppConfigIn) : Config :=
  { mimetypes := c.mimetypes.getD TEXT_TYPES
    level := c.level.getD 6
    minSize := c.minSize.getD 500
    enableGzip := c.enableGzip.getD true
    enableBrotli := c.enableBrotli.getD true
    gzipCacheKey := c.gzipCacheKey.getD none
    brotliCacheKey := c.brotliCacheKey.getD none
    register := c.register.getD true }

/-- Shallow embedding of `Compress.init_app` (source lines 71-96): resolves
the configuration and returns whether the `after_request` hook was
registered, which the source guards by
`COMPRESS_REGISTER and COMPRESS_MIMETYPES` (an empty whitelist is falsy). -/
def init_app (c : AppConfigIn) : Config × Bool :=
  let cfg := resolveConfig c
  (cfg, cfg.register && !cfg.mimetypes.isEmpty)

/-- The configuration produced by `init_app` when the caller supplies
nothing: all defaults. -/
def defaultConfig : Config :=
  resolveConfig
    { mimetypes := none, level := none, minSize := none, enableGzip := none,
      enableBrotli := none, gzipCacheKey := none, brotliCacheKey := none,
      cacheBackend := none, register := none }

/-- Comma-splitting of a header value, for stating the claims that speak of
comma-separated tokens. -/
def splitComma : List Char → List (List Char)
  | [] => [[]]
  | c :: t =>
      if c == ',' then [] :: splitComma t
      else
        match splitComma t with
        | [] => [[c]]
        | h :: r => (c :: h) :: r

/-- Strips leading and trailing spaces. -/
def trimSpaces (l : List Char) : List Char :=
  ((l.dropWhile (fun c => c == ' ')).reverse.dropWhile
    (fun c => c == ' ')).reverse

/-- The comma-separated tokens of a header value, with surrounding spaces
trimmed; used to state the Vary and Content-Encoding claims. -/
def varyTokens (s : String) : List String :=
  (splitComma s.data).map (fun l => ⟨trimSpaces l⟩)

/-! ### Helper lemmas about strings, headers, the cache and the rewrite -/

theorem lowerStr_append (a b : String) :
    lowerStr (a ++ b) = lowerStr a ++ lowerStr b := by
  show (⟨(a ++ b).data.map Char.toLower⟩ : String) = _
  rw [String.data_append, List.map_append]
  rfl

theorem containsSeq_append_right (n x y : List Char)
    (h : containsSeq n y = true) : containsSeq n (x ++ y) = true := by
  induction x with
  | nil => simpa using h
  | cons c t ih =>
      show (beginsList n (c :: (t ++ y)) || containsSeq n (t ++ y)) = true
      rw [ih, Bool.or_true]

theorem keyEq_self (k : String) : keyEq k k = true := by
  simp [keyEq]

theorem keyEq_eq_lower {a b : String} (h : keyEq a b = true) :
    lowerStr a = lowerStr b := by
  simpa [keyEq] using h

theorem hGet_hSet_self (hs : List (String × String)) (k v : String) :
    hGet (hSet hs k v) k = some v := by
  induction hs with
  | nil => simp [hSet, hRemove, hGet, keyEq_self]
  | cons p t ih =>
      obtain ⟨a, w⟩ := p
      by_cases hak : keyEq a k = true
      · simpa [hSet, hRemove, hak] using ih
      · simp only [Bool.not_eq_true] at hak
        simpa [hSet, hRemove, hGet, hak] using ih

theorem hGet_hSet_ne (hs : List (String × String)) (k v key : String)
    (h : keyEq k key = false) :
    hGet (hSet hs k v) key = hGet hs key := by
  induction hs with
  | nil => simp [hSet, hRemove, hGet, h]
  | cons p t ih =>
      obtain ⟨a, w⟩ := p
      by_cases hak : keyEq a k = true
      · have hka : keyEq a key = false := by
          rcases hb : keyEq a key with _ | _
          · rfl
          · exfalso
            have h1 := keyEq_eq_lower hak
            have h2 := keyEq_eq_lower hb
            have h3 : keyEq k key = true := by
              simp [keyEq, h1.symm.trans h2]
            rw [h3] at h
            exact Bool.noConfusion h
        simp only [hSet, hRemove, hak, if_true]
        rw [show hRemove t k ++ [(k, v)] = hSet t k v from rfl, ih]
        simp [hGet, hka]
      · simp only [Bool.not_eq_true] at hak
        simp only [hSet, hRemove, hak, if_false]
        show hGet ((a, w) :: (hRemove t k ++ [(k, v)])) key = _
        simp only [hGet]
        rcases hb : keyEq a key with _ | _
        · simpa using ih
        · rfl

theorem DictCache.get_set (c : DictCache) (k : String) (v : List Nat) :
    (c.set k v).get k = some v := by
  obtain ⟨d⟩ := c
  induction d with
  | nil => simp [DictCache.set, DictCache.set.setList, DictCache.get]
  | cons p t ih =>
      obtain ⟨k0, v0⟩ := p
      by_cases h : (k0 == k) = true
      · simp [DictCache.set, DictCache.set.setList, DictCache.get, h]
      · simp only [Bool.not_eq_true] at h
        simp only [DictCache.set, DictCache.set.setList, h, if_false]
        simpa [DictCache.set, DictCache.get, List.find?, h] using ih

theorem applyVary_body (r : Response) : (applyVary r).body = r.body := by
  unfold applyVary
  split <;> (try split) <;> (try split) <;> rfl

theorem applyVary_contentLength (r : Response) :
    (applyVary r).contentLength = r.contentLength := by
  unfold applyVary
  split <;> (try split) <;> (try split) <;> rfl

theorem applyVary_directPassthrough (r : Response) :
    (applyVary r).directPassthrough = r.directPassthrough := by
  unfold applyVary
  split <;> (try split) <;> (try split) <;> rfl

theorem hGet_applyVary_vary (r : Response) :
    hGet (applyVary r).headers "Vary" =
      some (mergeVary (hGet r.headers "Vary")) := by
  unfold applyVary mergeVary
  rcases h : hGet r.headers "Vary" with _ | v
  · simp [hGet_hSet_self]
  · by_cases he : v = ""
    · simp [he, hGet_hSet_self]
    · by_cases hs : substrOf "accept-encoding" (lowerStr v) = true
      · simp [he, hs, h]
      · simp only [Bool.not_eq_true] at hs
        simp [he, hs, hGet_hSet_self]

theorem hGet_applyVary_ne (r : Response) (key : String)
    (h : keyEq "Vary" key = false) :
    hGet (applyVary r).headers key = hGet r.headers key := by
  unfold applyVary
  split <;> (try split) <;> (try split) <;>
    simp [hGet_hSet_ne _ _ _ _ h]

theorem applyCompression_body (enc : Enc) (b : List Nat) (r : Response) :
    (applyCompression enc b r).body = b := by
  unfold applyCompression
  rw [applyVary_body]
  rfl

theorem applyCompression_contentLength (enc : Enc) (b : List Nat)
    (r : Response) :
    (applyCompression enc b r).contentLength = some b.length := by
  unfold applyCompression
  rw [applyVary_contentLength]
  rfl

theorem hGet_applyCompression_ce (enc : Enc) (b : List Nat) (r : Response) :
    hGet (applyCompression enc b r).headers "Content-Encoding" =
      some (encToken enc) := by
  unfold applyCompression
  rw [hGet_applyVary_ne _ _ (by decide)]
  show hGet (hSet (hSet (setData r b).headers "Content-Encoding"
      (encToken enc)) "Content-Length" (toString b.length))
      "Content-Encoding" = _
  rw [hGet_hSet_ne _ _ _ _ (by decide), hGet_hSet_self]

theorem hGet_applyCompression_cl (enc : Enc) (b : List Nat) (r : Response) :
    hGet (applyCompression enc b r).headers "Content-Length" =
      some (toString b.length) := by
  unfold applyCompression
  rw [hGet_applyVary_ne _ _ (by decide)]
  exact hGet_hSet_self _ _ _

theorem hGet_applyCompression_vary (enc : Enc) (b : List Nat) (r : Response) :
    hGet (applyCompression enc b r).headers "Vary" =
      some (mergeVary (hGet r.headers "Vary")) := by
  unfold applyCompression
  rw [hGet_applyVary_vary]
  show some (mergeVary (hGet (hSet (hSet (setData r b).headers
      "Content-Encoding" (encToken enc)) "Content-Length"
      (toString b.length)) "Vary")) = _
  rw [hGet_hSet_ne _ _ _ _ (by decide), hGet_hSet_ne _ _ _ _ (by decide)]
  rfl

theorem substrOf_mergeVary (v : Option String) :
    substrOf "accept-encoding" (lowerStr (mergeVary v)) = true := by
  rcases v with _ | v
  · decide
  · by_cases he : v = ""
    · simp only [mergeVary, he, if_true]
      decide
    · by_cases hs : substrOf "accept-encoding" (lowerStr v) = true
      · simp [mergeVary, he, hs]
      · simp only [Bool.not_eq_true] at hs
        simp only [mergeVary, he, hs, Bool.false_eq_true, if_false]
        rw [lowerStr_append]
        show containsSeq ("accept-encoding".data)
          ((lowerStr v).data ++ (lowerStr ", Accept-Encoding").data) = true
        exact containsSeq_append_right _ _ _ (by decide)

theorem mergeVary_ne_empty (v : Option String) : mergeVary v ≠ "" := by
  rcases v with _ | v
  · decide
  · by_cases he : v = ""
    · simp [mergeVary, he]
    · by_cases hs : substrOf "accept-encoding" (lowerStr v) = true
      · simp [mergeVary, he, hs]
      · simp only [Bool.not_eq_true] at hs
        simp only [mergeVary, he, hs, Bool.false_eq_true, if_false]
        intro h
        have hd := congrArg String.data h
        rw [String.data_append] at hd
        rcases hv : v.data with _ | _
        · exact he (by cases v; simpa [String.ext_iff] using hv)
        · rw [hv] at hd
          simp at hd

theorem mergeVary_idem (v : Option String) :
    mergeVary (some (mergeVary v)) = mergeVary v := by
  have h1 := substrOf_mergeVary v
  have h2 := mergeVary_ne_empty v
  show (if mergeVary v = "" then "Accept-Encoding"
        else if substrOf "accept-encoding" (lowerStr (mergeVary v)) then
          mergeVary v
        else mergeVary v ++ ", Accept-Encoding") = mergeVary v
  simp [h1, h2]

theorem afterRequest_not_eligible (cfg : Config) (aHdr : Option String)
    (bc gc : Config → Response → Except String (List Nat)) (r : Response)
    (cache : Option DictCache) (h : eligible cfg r = false) :
    afterRequest cfg aHdr bc gc r cache =
      { resp := r, cache := cache, applied := false, calls := 0,
        error := none } := by
  unfold afterRequest
  simp [h]

theorem afterRequest_no_encoding (cfg : Config) (aHdr : Option String)
    (bc gc : Config → Response → Except String (List Nat)) (r : Response)
    (cache : Option DictCache)
    (hsel : selectEncoding cfg (aHdr.getD "") = none) :
    afterRequest cfg aHdr bc gc r cache =
      { resp := r, cache := cache, applied := false, calls := 0,
        error := none } := by
  unfold afterRequest
  rcases he : eligible cfg r with _ | _
  · simp
  · simp [hsel]

theorem afterRequest_selected (cfg : Config) (aHdr : Option String)
    (bc gc : Config → Response → Except String (List Nat)) (r : Response)
    (cache : Option DictCache) (enc : Enc)
    (he : eligible cfg r = true)
    (hsel : selectEncoding cfg (aHdr.getD "") = some enc) :
    afterRequest cfg aHdr bc gc r cache =
      compressStep cfg bc gc enc { r with directPassthrough := false }
        cache := by
  unfold afterRequest
  simp [he, hsel]

theorem compressStep_applied_resp (cfg : Config)
    (bc gc : Config → Response → Except String (List Nat)) (enc : Enc)
    (r1 : Response) (cache : Option DictCache)
    (h : (compressStep cfg bc gc enc r1 cache).applied = true) :
    ∃ bytes,
      (compressStep cfg bc gc enc r1 cache).resp =
        applyCompression enc bytes r1 ∧
      (compressStep cfg bc gc enc r1 cache).error = none := by
  unfold compressStep at h ⊢
  rcases cache with _ | c
  · rcases hc : compressorFor bc gc cfg enc r1 with e | bytes
    · simp [hc] at h
    · simp only [hc]
      exact ⟨bytes, rfl, trivial⟩
  · rcases hk : keyFnFor cfg enc with _ | kf
    · simp [hk] at h
    · rcases ht : truthy (c.get (kf r1)) with _ | cached
      · rcases hc : compressorFor bc gc cfg enc r1 with e | bytes
        · simp [hk, ht, hc] at h
        · simp only [hk, ht, hc]
          exact ⟨bytes, rfl, trivial⟩
      · simp only [hk, ht]
        exact ⟨cached, rfl, trivial⟩

theorem compressStep_error_shape (cfg : Config)
    (bc gc : Config → Response → Except String (List Nat)) (enc : Enc)
    (r1 : Response) (cache : Option DictCache) (e : PErr)
    (h : (compressStep cfg bc gc enc r1 cache).error = some e) :
    (compressStep cfg bc gc enc r1 cache).resp = r1 ∧
    (compressStep cfg bc gc enc r1 cache).cache = cache ∧
    (compressStep cfg bc gc enc r1 cache).applied = false := by
  unfold compressStep at h ⊢
  rcases cache with _ | c
  · rcases hc : compressorFor bc gc cfg enc r1 with er | bytes <;>
      simp [hc] at h ⊢
  · rcases hk : keyFnFor cfg enc with _ | kf
    · simp [hk]
    · rcases ht : truthy (c.get (kf r1)) with _ | cached
      · rcases hc : compressorFor bc gc cfg enc r1 with er | bytes <;>
          simp [hk, ht, hc] at h ⊢
      · simp [hk, ht] at h

theorem selectEncoding_substr (cfg : Config) (a : String) (e : Enc)
    (h : selectEncoding cfg a = some e) :
    substrOf (encToken e) (lowerStr a) = true := by
  unfold selectEncoding at h
  by_cases h1 : (cfg.enableBrotli && substrOf "brotli" (lowerStr a)) = true
  · rw [if_pos h1] at h
    cases h
    exact (Bool.and_eq_true _ _ |>.mp h1).2
  · rw [if_neg h1] at h
    by_cases h2 : (cfg.enableGzip && substrOf "gzip" (lowerStr a)) = true
    · rw [if_pos h2] at h
      cases h
      exact (Bool.and_eq_true _ _ |>.mp h2).2
    · rw [if_neg h2] at h
      cases h

set_option maxRecDepth 8000

/-! ### Concrete fixtures used by witnesses and counterexamples -/

/-- A compression routine that always succeeds with a fixed non-empty
output. -/
def okCompressor : Config → Response → Except String (List Nat) :=
  fun _ _ => .ok [1, 2, 3]

/-- A compression routine that always raises. -/
def failCompressor : Config → Response → Except String (List Nat) :=
  fun _ _ => .error "boom"

/-- An eligible 600-byte text/html response carrying `Vary: Cookie`. -/
def sampleResponse : Response :=
  { mimetype := "text/html", statusCode := 200, body := List.replicate 600 65,
    contentLength := some 600, headers := [("Vary", "Cookie")],
    directPassthrough := true }

/-- An eligible response whose Vary header is "X-Accept-Encoding": it
mentions accept-encoding case-insensitively as a substring without carrying
"Accept-Encoding" as a comma-separated token. -/
def varyEdgeResponse : Response :=
  { sampleResponse with headers := [("Vary", "X-Accept-Encoding")] }

/-- A PNG response: its MIME type is outside the default whitelist. -/
def pngResponse : Response :=
  { sampleResponse with mimetype := "image/png", headers := [] }

/-- The default configuration with a gzip cache key function installed. -/
def cacheCfg : Config :=
  { defaultConfig with gzipCacheKey := some (fun r => r.mimetype) }

/-- The caller configuration that supplies an empty mimetypes whitelist and
an explicit COMPRESS_REGISTER = True. -/
def emptyMimeConfigIn : AppConfigIn :=
  { mimetypes := some [], level := none, minSize := none, enableGzip := none,
    enableBrotli := none, gzipCacheKey := none, brotliCacheKey := none,
    cacheBackend := none, register := some true }

/-! ### The claims -/

/-- Claim C1: the spec states that the effort level passed to the gzip
engine is min(9, settings.level). The code computes exactly that clamp at
line 150 into a local that is never used, and passes the unclamped
COMPRESS_LEVEL at line 152, so with level 11 the engine receives 11, not 9:
the code contradicts its own comment and clamp computation. -/
theorem claimC1_gzip_level :
    (∀ (engine : Nat → List Nat → Except String (List Nat)) (r : Response),
        gzip_compress engine { defaultConfig with level := 11 } r =
          engine 11 r.body) ∧
    gzipLevelComputed { defaultConfig with level := 11 } = 9 ∧
    gzipLevelPassed { defaultConfig with level := 11 } = 11 ∧
    gzipLevelPassed { defaultConfig with level := 11 } ≠
      gzipLevelComputed { defaultConfig with level := 11 } :=
  ⟨fun _ _ => rfl, rfl, rfl, by decide⟩

/-- Claim C5 counterexample: with Accept-Encoding exactly "br, gzip" and
both algorithms enabled (the defaults), the pipeline selects Gzip, not
Brotli, because "brotli" is not a substring of "br, gzip". -/
theorem claimC5_counterexample :
    defaultConfig.enableBrotli = true ∧ defaultConfig.enableGzip = true ∧
    selectEncoding defaultConfig "br, gzip" = some Enc.gzip ∧
    selectEncoding defaultConfig "br, gzip" ≠ some Enc.brotli := by
  refine ⟨rfl, rfl, by decide, by decide⟩

/-- Claim C5 amended: for "br, gzip" the selected algorithm is Gzip (the
substring match does not recognize the token "br"); an Accept-Encoding that
does contain the substring "brotli", such as "brotli, gzip", selects
Brotli. -/
theorem claimC5_amended (cfg : Config) (hb : cfg.enableBrotli = true)
    (hg : cfg.enableGzip = true) :
    selectEncoding cfg "br, gzip" = some Enc.gzip ∧
    selectEncoding cfg "brotli, gzip" = some Enc.brotli := by
  have h1 : substrOf "brotli" (lowerStr "br, gzip") = false := by decide
  have h2 : substrOf "gzip" (lowerStr "br, gzip") = true := by decide
  have h3 : substrOf "brotli" (lowerStr "brotli, gzip") = true := by decide
  constructor
  · unfold selectEncoding
    rw [h1, h2, hb, hg]
    rfl
  · unfold selectEncoding
    rw [h3, hb]
    rfl

/-- Witness for the amended claim C5, at the default configuration. -/
theorem claimC5_amended_witness :
    defaultConfig.enableBrotli = true ∧ defaultConfig.enableGzip = true ∧
    selectEncoding defaultConfig "br, gzip" = some Enc.gzip ∧
    selectEncoding defaultConfig "brotli, gzip" = some Enc.brotli :=
  ⟨rfl, rfl, (claimC5_amended defaultConfig rfl rfl).1,
    (claimC5_amended defaultConfig rfl rfl).2⟩

/-- Claim C10: `init_app` registers the per-response hook exactly when
COMPRESS_REGISTER holds and the resolved mimetypes whitelist is non-empty;
with an empty whitelist the hook is never wired in, even though
COMPRESS_REGISTER defaults to (or is set) true. -/
theorem claimC10_register (c : AppConfigIn) :
    ((init_app c).2 = true ↔
      (resolveConfig c).register = true ∧
      (resolveConfig c).mimetypes ≠ []) ∧
    ((resolveConfig c).mimetypes = [] → (init_app c).2 = false) := by
  constructor
  · show ((resolveConfig c).register && !(resolveConfig c).mimetypes.isEmpty)
        = true ↔ _
    rw [Bool.and_eq_true, Bool.not_eq_true']
    constructor
    · rintro ⟨h1, h2⟩
      refine ⟨h1, fun hn => ?_⟩
      rw [hn] at h2
      exact Bool.noConfusion h2
    · rintro ⟨h1, h2⟩
      refine ⟨h1, ?_⟩
      rcases hm : (resolveConfig c).mimetypes with _ | ⟨x, t⟩
      · exact absurd hm h2
      · rfl
  · intro h
    show ((resolveConfig c).register && !(resolveConfig c).mimetypes.isEmpty)
        = false
    rw [h]
    simp

/-- Witness for claim C10: an explicitly empty whitelist with
COMPRESS_REGISTER = True does not register the hook. -/
theorem claimC10_witness :
    (resolveConfig emptyMimeConfigIn).register = true ∧
    (resolveConfig emptyMimeConfigIn).mimetypes = [] ∧
    (init_app emptyMimeConfigIn).2 = false :=
  ⟨rfl, rfl, (claimC10_register emptyMimeConfigIn).2 rfl⟩

/-- Claim C3: when any eligibility condition fails the pipeline returns the
response with body and headers untouched and performs no side effects: the
cache state is unchanged and the compression routines are never invoked. -/
theorem claimC3_ineligible (cfg : Config) (aHdr : Option String)
    (bc gc : Config → Response → Except String (List Nat)) (r : Response)
    (cache : Option DictCache)
    (h : cfg.mimetypes.contains r.mimetype = false ∨
         r.statusCode < 200 ∨ 300 ≤ r.statusCode ∨
         r.contentLength = none ∨
         (∃ n, r.contentLength = some n ∧ n < cfg.minSize) ∨
         hMem r.headers "Content-Encoding" = true) :
    afterRequest cfg aHdr bc gc r cache =
      { resp := r, cache := cache, applied := false, calls := 0,
        error := none } := by
  apply afterRequest_not_eligible
  unfold eligible
  rcases h with h | h | h | h | ⟨n, hn, hlt⟩ | h
  · have h2 : r.mimetype ∉ cfg.mimetypes := by simpa using h
    simp [h2]
  · simp [Nat.not_le.mpr h]
  · simp [Nat.not_lt.mpr h]
  · simp [h]
  · simp [hn, Nat.not_le.mpr hlt]
  · simp [h]

/-- Witness for claim C3: a PNG response is returned untouched. -/
theorem claimC3_witness :
    defaultConfig.mimetypes.contains pngResponse.mimetype = false ∧
    afterRequest defaultConfig (some "gzip") okCompressor okCompressor
        pngResponse none =
      { resp := pngResponse, cache := none, applied := false, calls := 0,
        error := none } :=
  ⟨by decide,
    claimC3_ineligible defaultConfig (some "gzip") okCompressor okCompressor
      pngResponse none (Or.inl (by decide))⟩

/-- Claim C4: encoding selection is the case-insensitive substring policy:
Brotli when enabled and "brotli" occurs in the lowercased Accept-Encoding
(absent treated as the empty string), else Gzip when enabled and "gzip"
occurs, else no encoding, in which case an eligible response is returned
unmodified with no compression performed. -/
theorem claimC4_selection (cfg : Config) (aHdr : Option String)
    (bc gc : Config → Response → Except String (List Nat)) (r : Response)
    (cache : Option DictCache) (_helig : eligible cfg r = true) :
    ((cfg.enableBrotli && substrOf "brotli" (lowerStr (aHdr.getD ""))) =
        true → selectEncoding cfg (aHdr.getD "") = some Enc.brotli) ∧
    ((cfg.enableBrotli && substrOf "brotli" (lowerStr (aHdr.getD ""))) =
        false →
      (cfg.enableGzip && substrOf "gzip" (lowerStr (aHdr.getD ""))) = true →
      selectEncoding cfg (aHdr.getD "") = some Enc.gzip) ∧
    ((cfg.enableBrotli && substrOf "brotli" (lowerStr (aHdr.getD ""))) =
        false →
      (cfg.enableGzip && substrOf "gzip" (lowerStr (aHdr.getD ""))) =
        false →
      selectEncoding cfg (aHdr.getD "") = none ∧
      afterRequest cfg aHdr bc gc r cache =
        { resp := r, cache := cache, applied := false, calls := 0,
          error := none }) := by
  refine ⟨fun h => ?_, fun h1 h2 => ?_, fun h1 h2 => ?_⟩
  · unfold selectEncoding
    rw [h]
    rfl
  · unfold selectEncoding
    rw [h1, h2]
    rfl
  · have hnone : selectEncoding cfg (aHdr.getD "") = none := by
      unfold selectEncoding
      rw [h1, h2]
      rfl
    exact ⟨hnone, afterRequest_no_encoding cfg aHdr bc gc r cache hnone⟩

/-- Witness for claim C4: with Accept-Encoding "gzip" the gzip branch is
taken at the default configuration. -/
theorem claimC4_witness :
    eligible defaultConfig sampleResponse = true ∧
    selectEncoding defaultConfig "gzip" = some Enc.gzip :=
  ⟨by decide,
    (claimC4_selection defaultConfig (some "gzip") okCompressor okCompressor
        sampleResponse none (by decide)).2.1 (by decide) (by decide)⟩

/-- Needed for claim C2: once an encoding is selected, the step either
replaces the body (applied) or raises. -/
theorem compressStep_applied_or_error (cfg : Config)
    (bc gc : Config → Response → Except String (List Nat)) (enc : Enc)
    (r1 : Response) (cache : Option DictCache) :
    (compressStep cfg bc gc enc r1 cache).applied = true ∨
    (compressStep cfg bc gc enc r1 cache).error ≠ none := by
  unfold compressStep
  rcases cache with _ | c
  · rcases hc : compressorFor bc gc cfg enc r1 with e | bytes <;> simp [hc]
  · rcases hk : keyFnFor cfg enc with _ | kf
    · simp [hk]
    · rcases ht : truthy (c.get (kf r1)) with _ | cached
      · rcases hc : compressorFor bc gc cfg enc r1 with e | bytes <;>
          simp [hk, ht, hc]
      · simp [hk, ht]

/-- Claim C9 counterexample: the compression routine raises, the error
propagates, but the response is not left entirely unmutated: its
direct_passthrough flag was cleared before compression ran (source line
120), so the response differs from its pre-pipeline state at the point of
failure. -/
theorem claimC9_counterexample :
    (afterRequest defaultConfig (some "gzip") failCompressor failCompressor
        sampleResponse none).error = some (PErr.compressError "boom") ∧
    sampleResponse.directPassthrough = true ∧
    (afterRequest defaultConfig (some "gzip") failCompressor failCompressor
        sampleResponse none).resp.directPassthrough = false ∧
    (afterRequest defaultConfig (some "gzip") failCompressor failCompressor
        sampleResponse none).resp ≠ sampleResponse := by
  refine ⟨by decide, rfl, by decide, by decide⟩

/-- Claim C9 amended: when a compression routine or the cache key step
raises, the error propagates with the body, headers and cache unmutated and
no compression applied; the only prior mutation is the direct_passthrough
flag, already cleared before compression ran. -/
theorem claimC9_amended (cfg : Config) (aHdr : Option String)
    (bc gc : Config → Response → Except String (List Nat)) (r : Response)
    (cache : Option DictCache) (e : PErr)
    (herr : (afterRequest cfg aHdr bc gc r cache).error = some e) :
    (afterRequest cfg aHdr bc gc r cache).resp =
      { r with directPassthrough := false } ∧
    (afterRequest cfg aHdr bc gc r cache).resp.body = r.body ∧
    (afterRequest cfg aHdr bc gc r cache).resp.headers = r.headers ∧
    (afterRequest cfg aHdr bc gc r cache).cache = cache ∧
    (afterRequest cfg aHdr bc gc r cache).applied = false := by
  rcases he : eligible cfg r with _ | _
  · rw [afterRequest_not_eligible cfg aHdr bc gc r cache he] at herr
    exact absurd herr (by simp)
  · rcases hsel : selectEncoding cfg (aHdr.getD "") with _ | enc
    · rw [afterRequest_no_encoding cfg aHdr bc gc r cache hsel] at herr
      exact absurd herr (by simp)
    · rw [afterRequest_selected cfg aHdr bc gc r cache enc he hsel]
        at herr ⊢
      obtain ⟨h1, h2, h3⟩ :=
        compressStep_error_shape cfg bc gc enc
          { r with directPassthrough := false } cache e herr
      refine ⟨h1, ?_, ?_, h2, h3⟩
      · rw [h1]
      · rw [h1]

/-- Witness for the amended claim C9, with the always-failing compressor. -/
theorem claimC9_amended_witness :
    (afterRequest defaultConfig (some "gzip") failCompressor failCompressor
        sampleResponse none).error = some (PErr.compressError "boom") ∧
    (afterRequest defaultConfig (some "gzip") failCompressor failCompressor
        sampleResponse none).resp.body = sampleResponse.body ∧
    (afterRequest defaultConfig (some "gzip") failCompressor failCompressor
        sampleResponse none).resp.headers = sampleResponse.headers ∧
    (afterRequest defaultConfig (some "gzip") failCompressor failCompressor
        sampleResponse none).cache = none :=
  ⟨by decide,
    (claimC9_amended defaultConfig (some "gzip") failCompressor
        failCompressor sampleResponse none (PErr.compressError "boom")
        (by decide)).2.1,
    (claimC9_amended defaultConfig (some "gzip") failCompressor
        failCompressor sampleResponse none (PErr.compressError "boom")
        (by decide)).2.2.1,
    (claimC9_amended defaultConfig (some "gzip") failCompressor
        failCompressor sampleResponse none (PErr.compressError "boom")
        (by decide)).2.2.2.1⟩

/-- Claim C8: with a cache backend configured and no cache key function for
the selected encoding, the pipeline raises (in Python, calling None is a
TypeError) instead of silently skipping caching or compression. -/
theorem claimC8_missing_key_fn (cfg : Config) (aHdr : Option String)
    (bc gc : Config → Response → Except String (List Nat)) (r : Response)
    (c : DictCache) (enc : Enc)
    (helig : eligible cfg r = true)
    (hsel : selectEncoding cfg (aHdr.getD "") = some enc)
    (hkf : keyFnFor cfg enc = none) :
    (afterRequest cfg aHdr bc gc r (some c)).error =
      some PErr.typeErrorNoneNotCallable ∧
    (afterRequest cfg aHdr bc gc r (some c)).applied = false ∧
    (afterRequest cfg aHdr bc gc r (some c)).calls = 0 := by
  rw [afterRequest_selected cfg aHdr bc gc r (some c) enc helig hsel]
  unfold compressStep
  simp [hkf]

/-- Witness for claim C8: the default configuration has no gzip cache key
function, so with a cache present the pipeline raises. -/
theorem claimC8_witness :
    keyFnFor defaultConfig Enc.gzip = none ∧
    (afterRequest defaultConfig (some "gzip") okCompressor okCompressor
        sampleResponse (some ⟨[]⟩)).error =
      some PErr.typeErrorNoneNotCallable :=
  ⟨rfl,
    (claimC8_missing_key_fn defaultConfig (some "gzip") okCompressor
        okCompressor sampleResponse ⟨[]⟩ Enc.gzip (by decide) (by decide)
        rfl).1⟩

/-- Claim C2 counterexample: an eligible response whose prior Vary header is
"X-Accept-Encoding" is compressed (body replaced, Content-Encoding set to
"gzip", no error), yet afterwards "Accept-Encoding" is NOT one of the
comma-separated tokens of the Vary header: the substring check leaves the
header untouched, so the claimed iff fails in its forward direction. -/
theorem claimC2_counterexample :
    (afterRequest defaultConfig (some "gzip") okCompressor okCompressor
        varyEdgeResponse none).applied = true ∧
    (afterRequest defaultConfig (some "gzip") okCompressor okCompressor
        varyEdgeResponse none).error = none ∧
    hGet (afterRequest defaultConfig (some "gzip") okCompressor okCompressor
        varyEdgeResponse none).resp.headers "Content-Encoding" =
      some "gzip" ∧
    hGet (afterRequest defaultConfig (some "gzip") okCompressor okCompressor
        varyEdgeResponse none).resp.headers "Vary" =
      some "X-Accept-Encoding" ∧
    (varyTokens "X-Accept-Encoding").contains "Accept-Encoding" = false := by
  refine ⟨by decide, by decide, by decide, by decide, by decide⟩

/-- Claim C2 amended: after an error-free run, if compression was applied
then Content-Encoding is exactly the selected token ("brotli" or "gzip"),
which occurs as a substring of the lowercased Accept-Encoding the client
sent; the content length (field and header) equals the compressed byte
length; and the Vary header mentions accept-encoding case-insensitively as
a substring (not necessarily as a standalone comma-separated token). If
compression was not applied, the response is returned entirely unmodified —
in particular the pipeline never sets Content-Encoding when eligibility
fails. -/
theorem claimC2_invariant (cfg : Config) (aHdr : Option String)
    (bc gc : Config → Response → Except String (List Nat)) (r : Response)
    (cache : Option DictCache)
    (herr : (afterRequest cfg aHdr bc gc r cache).error = none) :
    ((afterRequest cfg aHdr bc gc r cache).applied = true →
      ∃ enc,
        selectEncoding cfg (aHdr.getD "") = some enc ∧
        hGet (afterRequest cfg aHdr bc gc r cache).resp.headers
            "Content-Encoding" = some (encToken enc) ∧
        substrOf (encToken enc) (lowerStr (aHdr.getD "")) = true ∧
        (afterRequest cfg aHdr bc gc r cache).resp.contentLength =
          some (afterRequest cfg aHdr bc gc r cache).resp.body.length ∧
        hGet (afterRequest cfg aHdr bc gc r cache).resp.headers
            "Content-Length" =
          some (toString
            (afterRequest cfg aHdr bc gc r cache).resp.body.length) ∧
        ∃ v, hGet (afterRequest cfg aHdr bc gc r cache).resp.headers
            "Vary" = some v ∧
          substrOf "accept-encoding" (lowerStr v) = true) ∧
    ((afterRequest cfg aHdr bc gc r cache).applied = false →
      afterRequest cfg aHdr bc gc r cache =
        { resp := r, cache := cache, applied := false, calls := 0,
          error := none }) := by
  rcases he : eligible cfg r with _ | _
  · rw [afterRequest_not_eligible cfg aHdr bc gc r cache he]
    exact ⟨fun h => absurd h (by simp), fun _ => rfl⟩
  · rcases hsel : selectEncoding cfg (aHdr.getD "") with _ | enc
    · rw [afterRequest_no_encoding cfg aHdr bc gc r cache hsel]
      exact ⟨fun h => absurd h (by simp), fun _ => rfl⟩
    · rw [afterRequest_selected cfg aHdr bc gc r cache enc he hsel]
        at herr ⊢
      constructor
      · intro happ
        obtain ⟨bytes, hresp, _⟩ :=
          compressStep_applied_resp cfg bc gc enc
            { r with directPassthrough := false } cache happ
        refine ⟨enc, rfl, ?_, selectEncoding_substr cfg (aHdr.getD "") enc hsel,
          ?_, ?_, ?_⟩
        · rw [hresp, hGet_applyCompression_ce]
        · rw [hresp, applyCompression_contentLength, applyCompression_body]
        · rw [hresp, hGet_applyCompression_cl, applyCompression_body]
        · refine ⟨mergeVary (hGet r.headers "Vary"), ?_,
            substrOf_mergeVary _⟩
          rw [hresp, hGet_applyCompression_vary]
      · intro happ
        rcases compressStep_applied_or_error cfg bc gc enc
            { r with directPassthrough := false } cache with h | h
        · rw [happ] at h
          exact absurd h (by simp)
        · exact absurd herr h

/-- Witness for the amended claim C2, on an error-free compressing run. -/
theorem claimC2_invariant_witness :
    (afterRequest defaultConfig (some "gzip") okCompressor okCompressor
        sampleResponse none).error = none ∧
    (afterRequest defaultConfig (some "gzip") okCompressor okCompressor
        sampleResponse none).applied = true ∧
    (∃ enc,
      selectEncoding defaultConfig "gzip" = some enc ∧
      hGet (afterRequest defaultConfig (some "gzip") okCompressor
          okCompressor sampleResponse none).resp.headers
          "Content-Encoding" = some (encToken enc) ∧
      substrOf (encToken enc) (lowerStr "gzip") = true ∧
      (afterRequest defaultConfig (some "gzip") okCompressor okCompressor
          sampleResponse none).resp.contentLength =
        some (afterRequest defaultConfig (some "gzip") okCompressor
          okCompressor sampleResponse none).resp.body.length ∧
      hGet (afterRequest defaultConfig (some "gzip") okCompressor
          okCompressor sampleResponse none).resp.headers "Content-Length" =
        some (toString (afterRequest defaultConfig (some "gzip")
          okCompressor okCompressor sampleResponse none).resp.body.length) ∧
      ∃ v, hGet (afterRequest defaultConfig (some "gzip") okCompressor
          okCompressor sampleResponse none).resp.headers "Vary" = some v ∧
        substrOf "accept-encoding" (lowerStr v) = true) :=
  ⟨by decide, by decide,
    (claimC2_invariant defaultConfig (some "gzip") okCompressor okCompressor
        sampleResponse none (by decide)).1 (by decide)⟩

/-- Claim C6: with a cache configured and a key function for the selected
encoding, and two responses mapping to the same cache key, a first run that
misses compresses once and stores the result, and a second sequential run
hits the cache: it yields the same compressed body bytes without invoking
the compression routine. -/
theorem claimC6_cache (cfg : Config) (aHdr : Option String)
    (bc gc : Config → Response → Except String (List Nat))
    (r1 r2 : Response) (c0 : DictCache) (enc : Enc)
    (kf : Response → String) (b : List Nat)
    (he1 : eligible cfg r1 = true) (he2 : eligible cfg r2 = true)
    (hsel : selectEncoding cfg (aHdr.getD "") = some enc)
    (hkf : keyFnFor cfg enc = some kf)
    (hkey : kf { r1 with directPassthrough := false } =
            kf { r2 with directPassthrough := false })
    (hmiss : c0.get (kf { r1 with directPassthrough := false }) = none)
    (hcomp : compressorFor bc gc cfg enc
        { r1 with directPassthrough := false } = .ok b)
    (hb : b ≠ []) :
    (afterRequest cfg aHdr bc gc r1 (some c0)).resp.body = b ∧
    (afterRequest cfg aHdr bc gc r1 (some c0)).calls = 1 ∧
    (afterRequest cfg aHdr bc gc r2
        (afterRequest cfg aHdr bc gc r1 (some c0)).cache).resp.body = b ∧
    (afterRequest cfg aHdr bc gc r2
        (afterRequest cfg aHdr bc gc r1 (some c0)).cache).calls = 0 ∧
    (afterRequest cfg aHdr bc gc r2
        (afterRequest cfg aHdr bc gc r1 (some c0)).cache).error = none := by
  rw [afterRequest_selected cfg aHdr bc gc r1 (some c0) enc he1 hsel]
  have h1 : compressStep cfg bc gc enc
      { r1 with directPassthrough := false } (some c0) =
      { resp := applyCompression enc b { r1 with directPassthrough := false }
        cache := some (c0.set (kf { r1 with directPassthrough := false }) b)
        applied := true
        calls := 1
        error := none } := by
    unfold compressStep
    simp [hkf, hmiss, hcomp, truthy]
  rw [h1]
  rw [afterRequest_selected cfg aHdr bc gc r2 _ enc he2 hsel]
  have hget : (c0.set (kf { r1 with directPassthrough := false }) b).get
      (kf { r2 with directPassthrough := false }) = some b := by
    rw [← hkey]
    exact DictCache.get_set c0 _ b
  have h2 : compressStep cfg bc gc enc
      { r2 with directPassthrough := false }
      (some (c0.set (kf { r1 with directPassthrough := false }) b)) =
      { resp := applyCompression enc b { r2 with directPassthrough := false }
        cache := some ((c0.set (kf { r1 with directPassthrough := false })
          b).set (kf { r2 with directPassthrough := false }) b)
        applied := true
        calls := 0
        error := none } := by
    unfold compressStep
    simp [hkf, hget, truthy, hb]
  rw [h2]
  exact ⟨applyCompression_body enc b _, rfl, applyCompression_body enc b _,
    rfl, rfl⟩

/-- Witness for claim C6, with a gzip cache key on the response MIME type
and an initially empty cache. -/
theorem claimC6_witness :
    (afterRequest cacheCfg (some "gzip") okCompressor okCompressor
        sampleResponse (some ⟨[]⟩)).resp.body = [1, 2, 3] ∧
    (afterRequest cacheCfg (some "gzip") okCompressor okCompressor
        sampleResponse (some ⟨[]⟩)).calls = 1 ∧
    (afterRequest cacheCfg (some "gzip") okCompressor okCompressor
        sampleResponse
        (afterRequest cacheCfg (some "gzip") okCompressor okCompressor
          sampleResponse (some ⟨[]⟩)).cache).resp.body = [1, 2, 3] ∧
    (afterRequest cacheCfg (some "gzip") okCompressor okCompressor
        sampleResponse
        (afterRequest cacheCfg (some "gzip") okCompressor okCompressor
          sampleResponse (some ⟨[]⟩)).cache).calls = 0 ∧
    (afterRequest cacheCfg (some "gzip") okCompressor okCompressor
        sampleResponse
        (afterRequest cacheCfg (some "gzip") okCompressor okCompressor
          sampleResponse (some ⟨[]⟩)).cache).error = none :=
  claimC6_cache cacheCfg (some "gzip") okCompressor okCompressor
    sampleResponse sampleResponse ⟨[]⟩ Enc.gzip (fun r => r.mimetype)
    [1, 2, 3] (by decide) (by decide) (by decide) rfl rfl rfl rfl
    (by decide)

/-- Claim C7: for an eligible response compressed with a prior
`Vary: Cookie` header, the resulting Vary value is "Cookie, Accept-Encoding"
and its comma-separated tokens contain Cookie and Accept-Encoding exactly
once each; a Vary value already mentioning accept-encoding
case-insensitively is kept unchanged; an absent (or empty, hence falsy)
Vary is set to exactly "Accept-Encoding"; and the merge is idempotent. -/
theorem claimC7_vary_merge (cfg : Config) (aHdr : Option String)
    (bc gc : Config → Response → Except String (List Nat)) (r : Response)
    (cache : Option DictCache)
    (hv : hGet r.headers "Vary" = some "Cookie")
    (happ : (afterRequest cfg aHdr bc gc r cache).applied = true) :
    (hGet (afterRequest cfg aHdr bc gc r cache).resp.headers "Vary" =
        some "Cookie, Accept-Encoding" ∧
      (varyTokens "Cookie, Accept-Encoding").count "Cookie" = 1 ∧
      (varyTokens "Cookie, Accept-Encoding").count "Accept-Encoding" = 1) ∧
    (∀ v, substrOf "accept-encoding" (lowerStr v) = true →
      mergeVary (some v) = v) ∧
    (mergeVary none = "Accept-Encoding" ∧
      mergeVary (some "") = "Accept-Encoding") ∧
    (∀ v, mergeVary (some (mergeVary v)) = mergeVary v) := by
  refine ⟨?_, ?_, ⟨rfl, rfl⟩, mergeVary_idem⟩
  · rcases he : eligible cfg r with _ | _
    · rw [afterRequest_not_eligible cfg aHdr bc gc r cache he] at happ
      exact absurd happ (by simp)
    · rcases hsel : selectEncoding cfg (aHdr.getD "") with _ | enc
      · rw [afterRequest_no_encoding cfg aHdr bc gc r cache hsel] at happ
        exact absurd happ (by simp)
      · rw [afterRequest_selected cfg aHdr bc gc r cache enc he hsel]
          at happ ⊢
        obtain ⟨bytes, hresp, _⟩ :=
          compressStep_applied_resp cfg bc gc enc
            { r with directPassthrough := false } cache happ
        rw [hresp, hGet_applyCompression_vary]
        refine ⟨?_, by decide, by decide⟩
        show some (mergeVary (hGet r.headers "Vary")) =
          some "Cookie, Accept-Encoding"
        rw [hv]
        decide
  · intro v hsub
    have hne : v ≠ "" := by
      intro hveq
      rw [hveq] at hsub
      exact absurd hsub (by decide)
    simp [mergeVary, hne, hsub]

/-- Witness for claim C7, with a compressing run on the Cookie-Vary
response. -/
theorem claimC7_witness :
    (afterRequest defaultConfig (some "gzip") okCompressor okCompressor
        sampleResponse none).applied = true ∧
    hGet (afterRequest defaultConfig (some "gzip") okCompressor okCompressor
        sampleResponse none).resp.headers "Vary" =
      some "Cookie, Accept-Encoding" ∧
    (varyTokens "Cookie, Accept-Encoding").count "Cookie" = 1 ∧
    (varyTokens "Cookie, Accept-Encoding").count "Accept-Encoding" = 1 :=
  ⟨by decide,
    (claimC7_vary_merge defaultConfig (some "gzip") okCompressor
        okCompressor sampleResponse none rfl (by decide)).1.1,
    (claimC7_vary_merge defaultConfig (some "gzip") okCompressor
        okCompressor sampleResponse none rfl (by decide)).1.2.1,
    (claimC7_vary_merge defaultConfig (some "gzip") okCompressor
        okCompressor sampleResponse none rfl (by decide)).1.2.2⟩
